import Mathlib

/-!
Verification of the v2.1 → v3.0 dataset porting scripts
(`examples/port_datasets/validate_v21_conversion.py`,
`port_v21_shards.py`, `aggregate_v21_shards.py`).

The validator is embedded as a pure function over an explicit dataset
model.  Numeric values are modelled over `ℚ` (exact arithmetic standing
for the mathematical semantics of `torch.allclose`); floating-point
rounding is outside the model.  Python dictionaries are modelled as
association lists without duplicate keys; dict equality is key-set
equality plus per-key value equality, insensitive to insertion order.
-/

namespace V21

attribute [local semireducible] Rat.mul Rat.add Rat.sub Rat.inv

/-- A value stored under one key of a frame, as produced by dataset
`__getitem__`: a torch tensor (shape plus flattened elements), a Python
float, or any other Python value (modelled opaquely by a tag; `==` on
two such values is equality of tags).  `torch.Tensor.item()` on a
tensor that does not hold exactly one element raises in Python; in this
total model such a comparison yields `false` (both argument orders
treat it identically, so no result below depends on the difference). -/
inductive Value where
  | tensor (shape : List Nat) (data : List ℚ)
  | float (x : ℚ)
  | other (tag : String)
deriving DecidableEq

/-- A feature descriptor from `meta.features`: dtype plus shape
(the parts of the descriptor the scripts inspect). -/
structure FeatureDesc where
  dtype : String
  shape : List Nat
deriving DecidableEq

/-- A frame as returned by `ds[i]` / `next(iter(ds))`: a dict from
feature key to value. -/
abbrev Frame := List (String × Value)

/-- Dataset-level metadata: `meta.fps`, `num_frames`, `meta.features`. -/
structure DatasetMeta where
  fps : ℚ
  numFrames : Nat
  features : List (String × FeatureDesc)
deriving DecidableEq

/-- A loaded dataset.  `streaming` records whether it was loaded as a
`StreamingLeRobotDataset` (iteration only) or a `LeRobotDataset`
(random access).  `frames` is the sequence the dataset actually yields;
for a random-access `LeRobotDataset` the storage layer guarantees
`meta.numFrames = frames.length`, while a streaming cursor may be
exhausted before `meta.numFrames` frames have been yielded. -/
structure Dataset where
  meta : DatasetMeta
  frames : List Frame
  streaming : Bool
deriving DecidableEq

/-- `INTERNAL_KEYS` from `validate_v21_conversion.py` line 98. -/
def internalKeys : List String :=
  ["timestamp", "episode_index", "index", "frame_index", "task_index"]

/-- Modelled from the spec: the metadata "set of camera-derived feature
names" (`meta.camera_keys`, defined outside `src/` in
`lerobot.datasets`): the features whose dtype marks them as
video/image-derived. -/
def isCameraDtype (d : FeatureDesc) : Bool :=
  d.dtype == "video" || d.dtype == "image"

/-- Modelled from the spec: `meta.camera_keys`, the names of the
camera-derived features of a feature map. -/
def camKeysOf (f : List (String × FeatureDesc)) : List String :=
  (f.filter fun p => isCameraDtype p.2).map fun p => p.1

/-- `{k: v for k, v in features.items() if k not in INTERNAL_KEYS}`. -/
def nonInternal (f : List (String × FeatureDesc)) : List (String × FeatureDesc) :=
  f.filter fun p => !(internalKeys.contains p.1)

/-- Python dict equality on association lists with unique keys: the two
maps agree on every key either holds (hence also have equal key sets). -/
def dictEq (a b : List (String × FeatureDesc)) : Bool :=
  (a.all fun p => b.lookup p.1 == some p.2) &&
    (b.all fun p => a.lookup p.1 == some p.2)

/-- `sorted(set(a) - set(b))` on dict key sets: the keys of `a` that are
not keys of `b` (before sorting). -/
def missingKeys (a b : List (String × FeatureDesc)) : List String :=
  (a.filter fun p => !(b.any fun q => q.1 == p.1)).map fun p => p.1

/-- Insert a string into a (sorted) list of strings, keeping order. -/
def insertStr (s : String) : List String → List String
  | [] => [s]
  | t :: ts => if s ≤ t then s :: t :: ts else t :: insertStr s ts

/-- Python `sorted` on a list of strings (insertion sort). -/
def sortStrs : List String → List String
  | [] => []
  | s :: ss => insertStr s (sortStrs ss)

/-- The elementwise `torch.allclose` condition
`|input - other| <= atol + rtol * |other|`. -/
def isClose (rtol atol x y : ℚ) : Bool :=
  |x - y| ≤ atol + rtol * |y|

/-- `torch.allclose` on the flattened elements of two tensors (the
shapes have already been checked equal by the caller). -/
def allclose (rtol atol : ℚ) : List ℚ → List ℚ → Bool
  | [], [] => true
  | x :: xs, y :: ys => isClose rtol atol x y && allclose rtol atol xs ys
  | _, _ => false

/-- `compare_values` (`validate_v21_conversion.py` lines 14–21). -/
def compare_values (left right : Value) (rtol atol : ℚ) : Bool :=
  match left, right with
  | .tensor ls ld, .tensor rs rd => ls == rs && allclose rtol atol ld rd
  | .float x, .tensor _ rd =>
    match rd with
    | [e] => x == e
    | _ => false
  | .tensor _ ld, .float y =>
    match ld with
    | [e] => e == y
    | _ => false
  | l, r => l == r

/-- `left.keys() == right.keys()`: Python dict key views compare as
sets. -/
def keySetEq (l r : Frame) : Bool :=
  (l.all fun p => r.any fun q => q.1 == p.1) &&
    (r.all fun p => l.any fun q => q.1 == p.1)

/-- One entry of the per-key loop body: the entry is skipped unless
`check_images` is set or its key is not a camera key; a kept entry is
"bad" when `compare_values(left[k], right[k], rtol, atol)` is false.
A key absent from `right` cannot occur after the key-set check; it is
treated as bad (Python would raise `KeyError` there). -/
def frameKeyBad (ci : Bool) (cams : List String) (rtol atol : ℚ)
    (right : Frame) (p : String × Value) : Bool :=
  (ci || !(cams.contains p.1)) &&
    (match right.lookup p.1 with
     | some rv => !(compare_values p.2 rv rtol atol)
     | none => true)

/-- The outcome of one run of the validator `main` after dataset
loading: which `AssertionError` (or Python runtime error) it raises, or
success with the number of frames it reports having compared. -/
inductive VResult where
  | fpsMismatch (srcFps tgtFps : ℚ)
  | schemaMismatch (missingInSource missingInTarget : List String)
  | nameError
  | indexError
  | keysMismatch (frame : Nat)
  | valueMismatch (frame : Nat) (key : String)
  | ok (compared : Nat)
deriving DecidableEq

/-- The per-frame check shared by both branches of `main` (lines
128–136 and 145–154): the key-set comparison, then the per-key value
comparison in the left frame's iteration order, reporting the first
failure, or `none` when the frame pair passes. -/
def checkFrame (i : Nat) (ci : Bool) (cams : List String) (rtol atol : ℚ)
    (left right : Frame) : Option VResult :=
  if keySetEq left right then
    match left.find? (frameKeyBad ci cams rtol atol right) with
    | some p => some (.valueMismatch i p.1)
    | none => none
  else
    some (.keysMismatch i)

/-- The streaming lockstep loop (lines 120–138): `while i < num`, pull
one frame from each cursor, break without error on exhaustion of either
side, otherwise run the per-frame check and stop at its first failure;
on exit report the number of frame pairs actually compared.  The first
argument of the recursion is the current frame index `i`, the second
the remaining budget `num - i`. -/
def streamGo (ci : Bool) (cams : List String) (rtol atol : ℚ) :
    Nat → Nat → List Frame → List Frame → VResult
  | i, 0, _, _ => .ok i
  | i, fuel + 1, l :: ls, r :: rs =>
    match checkFrame i ci cams rtol atol l r with
    | some e => e
    | none => streamGo ci cams rtol atol (i + 1) fuel ls rs
  | i, _ + 1, _, _ => .ok i

/-- The non-streaming branch (lines 140–156).  The `for` loop body only
fetches `ds_src[i]` / `ds_tgt[i]`; the key-set and per-key checks sit
after the loop at function level, so they run once, on the last fetched
pair, with `i = num - 1`.  With `num = 0` the names `left`/`right` are
unbound when the check runs (Python `NameError`); an index beyond the
actually available frames is a Python `IndexError`. -/
def randomGo (ci : Bool) (cams : List String) (rtol atol : ℚ) (num : Nat)
    (srcFrames tgtFrames : List Frame) : VResult :=
  if num = 0 then .nameError
  else
    match srcFrames[num - 1]?, tgtFrames[num - 1]? with
    | some l, some r =>
      match checkFrame (num - 1) ci cams rtol atol l r with
      | some e => e
      | none => .ok num
    | _, _ => .indexError

/-- `num = min(ds_src.num_frames, ds_tgt.num_frames)`, further capped by
`--max-frames` when supplied (lines 108–110). -/
def compLen (src tgt : Dataset) (mf : Option Nat) : Nat :=
  match mf with
  | none => min src.meta.numFrames tgt.meta.numFrames
  | some m => min (min src.meta.numFrames tgt.meta.numFrames) m

/-- The per-side frame sequence consumed by the streaming branch (lines
118–119): `iter(ds)` for a streaming dataset, the generator
`(ds[i] for i in range(num))` for a random-access one.  (For a
well-formed random-access dataset `num ≤ frames.length`, so the
generator never runs past the end.) -/
def effStream (d : Dataset) (num : Nat) : List Frame :=
  if d.streaming then d.frames else d.frames.take num

/-- The validator `main` after dataset loading (lines 94–156): the fps
precondition, the schema precondition on the feature maps with internal
keys removed, then the frame comparison in streaming or random-access
mode.  `camera_keys` is taken from the source dataset only (line 113),
exactly as in the script. -/
def validate (src tgt : Dataset) (ci : Bool) (rtol atol : ℚ)
    (mf : Option Nat) : VResult :=
  if src.meta.fps ≠ tgt.meta.fps then .fpsMismatch src.meta.fps tgt.meta.fps
  else if dictEq (nonInternal src.meta.features) (nonInternal tgt.meta.features) then
    if src.streaming || tgt.streaming then
      streamGo ci (camKeysOf src.meta.features) rtol atol 0 (compLen src tgt mf)
        (effStream src (compLen src tgt mf)) (effStream tgt (compLen src tgt mf))
    else
      randomGo ci (camKeysOf src.meta.features) rtol atol (compLen src tgt mf)
        src.frames tgt.frames
  else
    .schemaMismatch
      (sortStrs (missingKeys (nonInternal tgt.meta.features) (nonInternal src.meta.features)))
      (sortStrs (missingKeys (nonInternal src.meta.features) (nonInternal tgt.meta.features)))

/-- Did the run exit successfully (reach the final `print`)? -/
def succeeds : VResult → Bool
  | .ok _ => true
  | _ => false

/-- No duplicate elements, by `==`. -/
def nodupB : List String → Bool
  | [] => true
  | s :: ss => !(ss.contains s) && nodupB ss

/-- The keys of an association list are pairwise distinct (true of
every Python dict). -/
def nodupKeys (l : List (String × Value)) : Bool :=
  nodupB (l.map fun p => p.1)

/-- Well-formedness every dataset produced by the storage layer has:
frames and feature maps are dicts (no duplicate keys), and the internal
bookkeeping keys are scalar features, never video/image-derived. -/
def wf (d : Dataset) : Bool :=
  (d.frames.all fun f => nodupKeys f) &&
    nodupB (d.meta.features.map fun p => p.1) &&
    (d.meta.features.all fun p => !(internalKeys.contains p.1 && isCameraDtype p.2))

/-- Replace a dataset's frame sequence by its first `n` frames. -/
def truncFrames (d : Dataset) (n : Nat) : Dataset :=
  { d with frames := d.frames.take n }

/-!  The sharded converter driver (`port_v21_shards.py`) and the
aggregation driver (`aggregate_v21_shards.py`). -/

/-- Python `p or d` for an optional string argument: `None` and the
empty string are falsy and fall back to the default
(`port_v21_shards.py` line 29: `out_repo_prefix or repo_id`). -/
def pyOr (p : Option String) (d : String) : String :=
  match p with
  | none => d
  | some s => if s = "" then d else s

/-- The output identifier a converter worker writes its shard under
(`port_v21_shards.py` lines 29 and 39):
`f"(out_repo_prefix or repo_id)_world_(world_size)_rank_(rank)"`. -/
def outRepoId (repo_id : String) (pfx : Option String)
    (world_size rank : Nat) : String :=
  pyOr pfx repo_id ++ "_world_" ++ toString world_size ++ "_rank_" ++ toString rank

namespace AggregateV21Shards

/-- `AggregateV21Shards.run` (`aggregate_v21_shards.py` lines 22–25):
returns the `(shard_repo_ids, aggregated_repo_id)` arguments of the
`aggregate_datasets` call it performs, or `none` when `rank != 0` and
the task does nothing. -/
def run (shard_repo_ids : List String) (aggregated_repo_id : String)
    (rank world_size : Nat) : Option (List String × String) :=
  if rank = 0 then some (shard_repo_ids, aggregated_repo_id) else none

end AggregateV21Shards

/-- The shard identifier list the aggregation driver derives from a
base repo id and a worker count (`aggregate_v21_shards.py` line 52). -/
def shardRepoIds (base : String) (w : Nat) : List String :=
  (List.range w).map fun r =>
    base ++ "_world_" ++ toString w ++ "_rank_" ++ toString r

/-!  Concrete datasets used as witnesses and counterexamples. -/

/-- A scalar (non-camera) feature descriptor. -/
def scalarDesc : FeatureDesc := ⟨"float32", [1]⟩

/-- Metadata with one non-internal scalar feature `"x"`. -/
def metaX (n : Nat) : DatasetMeta := ⟨30, n, [("x", scalarDesc)]⟩

/-- C1 failing input, source side: two frames, `x = 0` then `x = 1`,
loaded for random access. -/
def c1Src : Dataset := ⟨metaX 2, [[("x", .float 0)], [("x", .float 1)]], false⟩

/-- C1 failing input, target side: frame 0 disagrees (`x = 7`), frame 1
agrees. -/
def c1Tgt : Dataset := ⟨metaX 2, [[("x", .float 7)], [("x", .float 1)]], false⟩

/-- C2 counterexample, first dataset: a single frame with the
one-element tensor `[0]`. -/
def c2A : Dataset := ⟨metaX 1, [[("x", .tensor [1] [0])]], false⟩

/-- C2 counterexample, second dataset: a single frame with the
one-element tensor `[100]`. -/
def c2B : Dataset := ⟨metaX 1, [[("x", .tensor [1] [100])]], false⟩

/-- C3 witness, source side: 20 frames `x = [j]`, random access. -/
def c3Src : Dataset :=
  ⟨metaX 20, (List.range 20).map fun j => [("x", Value.tensor [1] [(j : ℚ)])], false⟩

/-- C3 witness, target side: a streaming dataset whose metadata records
20 frames but whose cursor yields only 7 before exhausting. -/
def c3Tgt : Dataset :=
  ⟨metaX 20, (List.range 7).map fun j => [("x", Value.tensor [1] [(j : ℚ)])], true⟩

/-- C4 frames: 10 frames with `x = [j]`, except frame 5 where the
element is perturbed by `eps`. -/
def c4Frames (eps : ℚ) : List Frame :=
  (List.range 10).map fun j =>
    [("x", Value.tensor [1] [(j : ℚ) + if j = 5 then eps else 0])]

/-- C4 source dataset (streaming). -/
def c4SrcStream : Dataset := ⟨metaX 10, c4Frames 0, true⟩

/-- C4 target dataset (streaming): differs by `1e-7` at frame 5. -/
def c4TgtStream : Dataset := ⟨metaX 10, c4Frames (1 / 10000000), true⟩

/-- C4 source dataset (random access). -/
def c4SrcRand : Dataset := ⟨metaX 10, c4Frames 0, false⟩

/-- C4 target dataset (random access): differs by `1e-7` at frame 5. -/
def c4TgtRand : Dataset := ⟨metaX 10, c4Frames (1 / 10000000), false⟩

/-- C5 witness, source side: one non-internal feature `"obs"` plus the
internal `"timestamp"`. -/
def c5Src : Dataset :=
  ⟨⟨30, 1, [("obs", scalarDesc), ("timestamp", scalarDesc)]⟩, [[("obs", .float 0)]], false⟩

/-- C5 witness, target side: missing the non-internal feature `"obs"`. -/
def c5Tgt : Dataset := ⟨⟨30, 1, [("timestamp", scalarDesc)]⟩, [[("obs", .float 0)]], false⟩

/-- The conclusion of claim C5, as a predicate on the validator run:
a schema-mismatch failure is raised exactly when the feature maps with
internal keys removed differ; when it is raised, its first list names
the non-internal features present only in the target, its second the
non-internal features present only in the source, and the same failure
is produced whatever the frame contents or access modes are (no frame
is consulted). -/
def C5Concl (A B : Dataset) (ci : Bool) (rtol atol : ℚ) (mf : Option Nat) : Prop :=
  ((∃ ml mr, validate A B ci rtol atol mf = .schemaMismatch ml mr) ↔
    dictEq (nonInternal A.meta.features) (nonInternal B.meta.features) = false)
  ∧ ∀ ml mr, validate A B ci rtol atol mf = .schemaMismatch ml mr →
      (∀ k, k ∈ ml ↔ ((∃ d, (k, d) ∈ nonInternal B.meta.features) ∧
        ¬ ∃ d, (k, d) ∈ nonInternal A.meta.features))
      ∧ (∀ k, k ∈ mr ↔ ((∃ d, (k, d) ∈ nonInternal A.meta.features) ∧
        ¬ ∃ d, (k, d) ∈ nonInternal B.meta.features))
      ∧ ∀ (fa fb : List Frame) (sa sb : Bool),
          validate ⟨A.meta, fa, sa⟩ ⟨B.meta, fb, sb⟩ ci rtol atol mf =
            .schemaMismatch ml mr

/-!  Helper lemmas. -/

theorem mem_insertStr {a s : String} {l : List String} :
    a ∈ insertStr s l ↔ a = s ∨ a ∈ l := by
  induction l with
  | nil => simp [insertStr]
  | cons t ts ih =>
    by_cases h : s ≤ t
    · simp [insertStr, h]
    · simp [insertStr, h, ih]
      tauto

theorem mem_sortStrs {a : String} {l : List String} :
    a ∈ sortStrs l ↔ a ∈ l := by
  induction l with
  | nil => simp [sortStrs]
  | cons s ss ih => simp [sortStrs, mem_insertStr, ih]

theorem lookup_mem {β : Type} {l : List (String × β)} {k : String} {v : β}
    (h : l.lookup k = some v) : (k, v) ∈ l := by
  induction l with
  | nil => simp [List.lookup] at h
  | cons p t ih =>
    obtain ⟨a, b⟩ := p
    by_cases hk : k = a
    · subst hk
      rw [List.lookup_cons] at h
      simp at h
      subst h
      exact List.mem_cons_self _ _
    · have hbeq : (k == a) = false := by simpa using hk
      rw [List.lookup_cons, hbeq] at h
      exact List.mem_cons_of_mem _ (ih h)

theorem mem_lookup_of_nodup {β : Type} {l : List (String × β)} {k : String} {v : β}
    (hn : nodupB (l.map fun p => p.1) = true) (h : (k, v) ∈ l) :
    l.lookup k = some v := by
  induction l with
  | nil => simp at h
  | cons p t ih =>
    obtain ⟨a, b⟩ := p
    rw [List.map_cons, nodupB, Bool.and_eq_true] at hn
    rcases List.mem_cons.mp h with h1 | h1
    · rw [Prod.mk.injEq] at h1
      obtain ⟨h1a, h1b⟩ := h1
      subst h1a
      subst h1b
      rw [List.lookup_cons]
      simp
    · have hk : k ≠ a := by
        intro he
        subst he
        have hmem : k ∈ t.map fun q => q.1 := List.mem_map.mpr ⟨(k, v), h1, rfl⟩
        have h2 : ((t.map fun q => q.1).contains k) = false := by
          have h3 := hn.1
          rwa [Bool.not_eq_true'] at h3
        have h4 : ((t.map fun q => q.1).contains k) = true :=
          List.elem_eq_true_of_mem hmem
        rw [h2] at h4
        exact Bool.false_ne_true h4
      have hbeq : (k == a) = false := by simpa using hk
      rw [List.lookup_cons, hbeq]
      exact ih hn.2 h1

theorem isClose_zero_symm (atol x y : ℚ) :
    isClose 0 atol x y = isClose 0 atol y x := by
  simp [isClose, decide_eq_decide, abs_sub_comm]

theorem allclose_zero_symm (atol : ℚ) :
    ∀ xs ys : List ℚ, allclose 0 atol xs ys = allclose 0 atol ys xs := by
  intro xs
  induction xs with
  | nil => intro ys; cases ys <;> simp [allclose]
  | cons x xt ih =>
    intro ys
    cases ys with
    | nil => simp [allclose]
    | cons y yt => simp [allclose, ih, isClose_zero_symm]

theorem compare_values_zero_symm (l r : Value) (atol : ℚ) :
    compare_values l r 0 atol = compare_values r l 0 atol := by
  cases l with
  | tensor ls ld =>
    cases r with
    | tensor rs rd =>
      show (ls == rs && allclose 0 atol ld rd) = (rs == ls && allclose 0 atol rd ld)
      rw [allclose_zero_symm atol ld rd, Bool.beq_comm]
    | float y =>
      cases ld with
      | nil => rfl
      | cons e es =>
        cases es with
        | nil => exact Bool.beq_comm
        | cons f fs => rfl
    | other t => exact Bool.beq_comm
  | float x =>
    cases r with
    | tensor rs rd =>
      cases rd with
      | nil => rfl
      | cons e es =>
        cases es with
        | nil => exact Bool.beq_comm
        | cons f fs => rfl
    | float y => exact Bool.beq_comm
    | other t => exact Bool.beq_comm
  | other s => cases r <;> exact Bool.beq_comm

theorem keySetEq_symm (l r : Frame) : keySetEq l r = keySetEq r l := by
  simp [keySetEq, Bool.and_comm]

theorem keySetEq_lookup {l r : Frame} (h : keySetEq l r = true) {k : String}
    {v : Value} (hm : (k, v) ∈ l) : ∃ w, r.lookup k = some w := by
  rw [keySetEq, Bool.and_eq_true, List.all_eq_true] at h
  have h2 := h.1 _ hm
  rw [List.any_eq_true] at h2
  obtain ⟨q, hq, he⟩ := h2
  have he2 : q.1 = k := by simpa using he
  have : (r.lookup k).isSome := by
    rw [List.lookup_isSome_iff]
    exact ⟨q, hq, by simp [he2]⟩
  exact Option.isSome_iff_exists.mp this

theorem frameKeyBad_flip {ci : Bool} {camsA camsB : List String} {atol : ℚ}
    {l r : Frame} (hcam : ∀ k, camsA.contains k = camsB.contains k)
    (hks : keySetEq l r = true) (hl : nodupKeys l = true)
    {k : String} {v : Value} (hm : (k, v) ∈ l)
    (hbad : frameKeyBad ci camsA 0 atol r (k, v) = true) :
    ∃ w, (k, w) ∈ r ∧ frameKeyBad ci camsB 0 atol l (k, w) = true := by
  rw [frameKeyBad, Bool.and_eq_true] at hbad
  obtain ⟨hskip, hcmp⟩ := hbad
  obtain ⟨w, hw⟩ := keySetEq_lookup hks hm
  rw [hw] at hcmp
  have hcmp2 : compare_values v w 0 atol = false := by
    rwa [Bool.not_eq_true'] at hcmp
  refine ⟨w, lookup_mem hw, ?_⟩
  rw [frameKeyBad, Bool.and_eq_true]
  refine ⟨?_, ?_⟩
  · rw [hcam k] at hskip
    exact hskip
  · rw [mem_lookup_of_nodup hl hm]
    show (!(compare_values w v 0 atol)) = true
    rw [Bool.not_eq_true']
    rw [compare_values_zero_symm w v atol]
    exact hcmp2

theorem checkFrame_eq_none_iff {i : Nat} {ci : Bool} {cams : List String}
    {rtol atol : ℚ} {l r : Frame} :
    checkFrame i ci cams rtol atol l r = none ↔
      keySetEq l r = true ∧ l.find? (frameKeyBad ci cams rtol atol r) = none := by
  rw [checkFrame]
  by_cases h : keySetEq l r = true
  · rw [if_pos h]
    cases hf : l.find? (frameKeyBad ci cams rtol atol r) <;> simp [h, hf]
  · rw [if_neg h]
    simp [h]

theorem checkFrame_none_mp {i : Nat} {ci : Bool} {camsA camsB : List String}
    {atol : ℚ} {l r : Frame}
    (hcam : ∀ k, camsA.contains k = camsB.contains k)
    (hl : nodupKeys l = true) (hr : nodupKeys r = true)
    (h : checkFrame i ci camsA 0 atol l r = none) :
    checkFrame i ci camsB 0 atol r l = none := by
  rw [checkFrame_eq_none_iff] at h ⊢
  obtain ⟨hks, hfind⟩ := h
  refine ⟨by rw [keySetEq_symm]; exact hks, ?_⟩
  cases hf : r.find? (frameKeyBad ci camsB 0 atol l) with
  | none => rfl
  | some p =>
    exfalso
    have hmem := List.mem_of_find?_eq_some hf
    have hbadp := List.find?_some hf
    obtain ⟨k, w⟩ := p
    have hks2 : keySetEq r l = true := by rw [keySetEq_symm]; exact hks
    obtain ⟨v, hvmem, hvbad⟩ :=
      frameKeyBad_flip (fun k2 => (hcam k2).symm) hks2 hr hmem hbadp
    have : (l.find? (frameKeyBad ci camsA 0 atol r)).isSome := by
      rw [List.find?_isSome]
      exact ⟨(k, v), hvmem, hvbad⟩
    rw [hfind] at this
    simp at this

theorem checkFrame_some_shape {i : Nat} {ci : Bool} {cams : List String}
    {rtol atol : ℚ} {l r : Frame} {e : VResult}
    (h : checkFrame i ci cams rtol atol l r = some e) :
    e = .keysMismatch i ∨ ∃ k, e = .valueMismatch i k := by
  rw [checkFrame] at h
  by_cases hks : keySetEq l r = true
  · rw [if_pos hks] at h
    cases hf : l.find? (frameKeyBad ci cams rtol atol r) with
    | none => rw [hf] at h; simp at h
    | some p =>
      rw [hf] at h
      rw [Option.some.injEq] at h
      exact Or.inr ⟨p.1, h.symm⟩
  · rw [if_neg hks] at h
    rw [Option.some.injEq] at h
    exact Or.inl h.symm

theorem checkFrame_some_fail {i : Nat} {ci : Bool} {cams : List String}
    {rtol atol : ℚ} {l r : Frame} {e : VResult}
    (h : checkFrame i ci cams rtol atol l r = some e) : succeeds e = false := by
  rcases checkFrame_some_shape h with h2 | ⟨k, h2⟩ <;> subst h2 <;> rfl

theorem streamGo_symm {ci : Bool} {camsA camsB : List String} {atol : ℚ}
    (hcam : ∀ k, camsA.contains k = camsB.contains k) :
    ∀ (fuel i : Nat) (xs ys : List Frame),
      (∀ f ∈ xs, nodupKeys f = true) → (∀ f ∈ ys, nodupKeys f = true) →
      succeeds (streamGo ci camsA 0 atol i fuel xs ys) =
        succeeds (streamGo ci camsB 0 atol i fuel ys xs) := by
  intro fuel
  induction fuel with
  | zero => intro i xs ys _ _; rfl
  | succ f ih =>
    intro i xs ys hxs hys
    cases xs with
    | nil => cases ys <;> rfl
    | cons l ls =>
      cases ys with
      | nil => rfl
      | cons r rs =>
        rw [streamGo, streamGo]
        cases hc : checkFrame i ci camsA 0 atol l r with
        | none =>
          have hc2 : checkFrame i ci camsB 0 atol r l = none :=
            checkFrame_none_mp hcam (hxs l (List.mem_cons_self _ _))
              (hys r (List.mem_cons_self _ _)) hc
          rw [hc2]
          exact ih (i + 1) ls rs (fun f hf => hxs f (List.mem_cons_of_mem _ hf))
            (fun f hf => hys f (List.mem_cons_of_mem _ hf))
        | some e =>
          cases hc2 : checkFrame i ci camsB 0 atol r l with
          | none =>
            exfalso
            have hc3 : checkFrame i ci camsA 0 atol l r = none :=
              checkFrame_none_mp (fun k => (hcam k).symm)
                (hys r (List.mem_cons_self _ _)) (hxs l (List.mem_cons_self _ _)) hc2
            rw [hc] at hc3
            exact Option.noConfusion hc3
          | some e2 =>
            rw [checkFrame_some_fail hc, checkFrame_some_fail hc2]

theorem streamGo_take (ci : Bool) (cams : List String) (rtol atol : ℚ) :
    ∀ (fuel i : Nat) (xs ys : List Frame),
      streamGo ci cams rtol atol i fuel xs ys =
        streamGo ci cams rtol atol i fuel (xs.take fuel) (ys.take fuel) := by
  intro fuel
  induction fuel with
  | zero => intro i xs ys; rfl
  | succ f ih =>
    intro i xs ys
    cases xs with
    | nil => cases ys <;> rfl
    | cons l ls =>
      cases ys with
      | nil => rfl
      | cons r rs =>
        rw [List.take_succ_cons, List.take_succ_cons, streamGo, streamGo]
        cases hc : checkFrame i ci cams rtol atol l r with
        | none => exact ih (i + 1) ls rs
        | some e => rfl

theorem streamGo_ok_all {ci : Bool} {cams : List String} {rtol atol : ℚ} :
    ∀ (fuel i : Nat) (xs ys : List Frame),
      min xs.length ys.length < fuel →
      (∀ j, j < min xs.length ys.length →
        checkFrame (i + j) ci cams rtol atol (xs.getD j []) (ys.getD j []) = none) →
      streamGo ci cams rtol atol i fuel xs ys = .ok (i + min xs.length ys.length) := by
  intro fuel
  induction fuel with
  | zero => intro i xs ys h _; omega
  | succ f ih =>
    intro i xs ys hlt hall
    cases xs with
    | nil => simp [streamGo]
    | cons l ls =>
      cases ys with
      | nil => simp [streamGo]
      | cons r rs =>
        rw [streamGo]
        have h0 := hall 0 (by simp only [List.length_cons]; omega)
        simp only [List.getD_cons_zero, Nat.add_zero] at h0
        rw [h0]
        have hrec := ih (i + 1) ls rs
          (by simp only [List.length_cons] at hlt ⊢; omega)
          (fun j hj => by
            have h2 := hall (j + 1) (by simp only [List.length_cons] at hj ⊢; omega)
            rw [List.getD_cons_succ, List.getD_cons_succ] at h2
            have h3 : i + (j + 1) = i + 1 + j := by omega
            rw [h3] at h2
            exact h2)
        rw [hrec]
        have h4 : i + 1 + min ls.length rs.length =
            i + min (l :: ls).length (r :: rs).length := by
          simp only [List.length_cons]
          omega
        rw [h4]

theorem streamGo_spec (ci : Bool) (cams : List String) (rtol atol : ℚ) :
    ∀ (fuel i : Nat) (xs ys : List Frame),
      (∃ k, streamGo ci cams rtol atol i fuel xs ys = .ok k ∧ k ≤ i + fuel)
      ∨ (∃ j, streamGo ci cams rtol atol i fuel xs ys = .keysMismatch j ∧ j < i + fuel)
      ∨ (∃ j key, streamGo ci cams rtol atol i fuel xs ys = .valueMismatch j key ∧
          j < i + fuel) := by
  intro fuel
  induction fuel with
  | zero => intro i xs ys; exact Or.inl ⟨i, rfl, by omega⟩
  | succ f ih =>
    intro i xs ys
    cases xs with
    | nil => exact Or.inl ⟨i, rfl, by omega⟩
    | cons l ls =>
      cases ys with
      | nil => exact Or.inl ⟨i, rfl, by omega⟩
      | cons r rs =>
        rw [streamGo]
        cases hc : checkFrame i ci cams rtol atol l r with
        | none =>
          rcases ih (i + 1) ls rs with ⟨k, hk, hb⟩ | ⟨j, hj, hb⟩ | ⟨j, key, hj, hb⟩
          · exact Or.inl ⟨k, hk, by omega⟩
          · exact Or.inr (Or.inl ⟨j, hj, by omega⟩)
          · exact Or.inr (Or.inr ⟨j, key, hj, by omega⟩)
        | some e =>
          rcases checkFrame_some_shape hc with h2 | ⟨k, h2⟩
          · subst h2; exact Or.inr (Or.inl ⟨i, rfl, by omega⟩)
          · subst h2; exact Or.inr (Or.inr ⟨i, k, rfl, by omega⟩)

theorem randomGo_spec (ci : Bool) (cams : List String) (rtol atol : ℚ)
    (num : Nat) (sf tf : List Frame) :
    (num = 0 ∧ randomGo ci cams rtol atol num sf tf = .nameError)
    ∨ randomGo ci cams rtol atol num sf tf = .indexError
    ∨ randomGo ci cams rtol atol num sf tf = .ok num
    ∨ (0 < num ∧ randomGo ci cams rtol atol num sf tf = .keysMismatch (num - 1))
    ∨ (0 < num ∧ ∃ key,
        randomGo ci cams rtol atol num sf tf = .valueMismatch (num - 1) key) := by
  rw [randomGo]
  by_cases h0 : num = 0
  · rw [if_pos h0]; exact Or.inl ⟨h0, rfl⟩
  · rw [if_neg h0]
    cases hs : sf[num - 1]? with
    | none => exact Or.inr (Or.inl rfl)
    | some l =>
      cases ht : tf[num - 1]? with
      | none => exact Or.inr (Or.inl rfl)
      | some r =>
        have hshow :
            (match some l, some r with
             | some l2, some r2 =>
               match checkFrame (num - 1) ci cams rtol atol l2 r2 with
               | some e => e
               | none => VResult.ok num
             | _, _ => VResult.indexError) =
            (match checkFrame (num - 1) ci cams rtol atol l r with
             | some e => e
             | none => VResult.ok num) := rfl
        rw [hshow]
        cases hc : checkFrame (num - 1) ci cams rtol atol l r with
        | none => exact Or.inr (Or.inr (Or.inl rfl))
        | some e =>
          rcases checkFrame_some_shape hc with h2 | ⟨k, h2⟩
          · subst h2
            exact Or.inr (Or.inr (Or.inr (Or.inl ⟨by omega, rfl⟩)))
          · subst h2
            exact Or.inr (Or.inr (Or.inr (Or.inr ⟨by omega, k, rfl⟩)))

theorem randomGo_symm {ci : Bool} {camsA camsB : List String} {atol : ℚ}
    {num : Nat} {sf tf : List Frame}
    (hcam : ∀ k, camsA.contains k = camsB.contains k)
    (hsf : ∀ f ∈ sf, nodupKeys f = true) (htf : ∀ f ∈ tf, nodupKeys f = true) :
    succeeds (randomGo ci camsA 0 atol num sf tf) =
      succeeds (randomGo ci camsB 0 atol num tf sf) := by
  rw [randomGo, randomGo]
  by_cases h0 : num = 0
  · rw [if_pos h0, if_pos h0]
  · rw [if_neg h0, if_neg h0]
    cases hs : sf[num - 1]? with
    | none =>
      cases ht : tf[num - 1]? <;> rfl
    | some l =>
      cases ht : tf[num - 1]? with
      | none => rfl
      | some r =>
        have hln : nodupKeys l = true := hsf l (List.getElem?_mem hs)
        have hrn : nodupKeys r = true := htf r (List.getElem?_mem ht)
        show succeeds
            (match checkFrame (num - 1) ci camsA 0 atol l r with
             | some e => e
             | none => VResult.ok num) =
          succeeds
            (match checkFrame (num - 1) ci camsB 0 atol r l with
             | some e => e
             | none => VResult.ok num)
        cases hc : checkFrame (num - 1) ci camsA 0 atol l r with
        | none =>
          have hc2 : checkFrame (num - 1) ci camsB 0 atol r l = none :=
            checkFrame_none_mp hcam hln hrn hc
          rw [hc2]
        | some e =>
          cases hc2 : checkFrame (num - 1) ci camsB 0 atol r l with
          | none =>
            exfalso
            have hc3 : checkFrame (num - 1) ci camsA 0 atol l r = none :=
              checkFrame_none_mp (fun k => (hcam k).symm) hrn hln hc2
            rw [hc] at hc3
            exact Option.noConfusion hc3
          | some e2 =>
            rw [checkFrame_some_fail hc, checkFrame_some_fail hc2]

theorem dictEq_symm (a b : List (String × FeatureDesc)) :
    dictEq a b = dictEq b a := by
  simp [dictEq, Bool.and_comm]

theorem dictEq_lookup {a b : List (String × FeatureDesc)}
    (h : dictEq a b = true) {k : String} {d : FeatureDesc} (hm : (k, d) ∈ a) :
    b.lookup k = some d := by
  rw [dictEq, Bool.and_eq_true, List.all_eq_true] at h
  have h2 := h.1 _ hm
  simpa using h2

theorem mem_camKeysOf {f : List (String × FeatureDesc)} {k : String} :
    k ∈ camKeysOf f ↔ ∃ d, (k, d) ∈ f ∧ isCameraDtype d = true := by
  rw [camKeysOf]
  constructor
  · intro h
    obtain ⟨p, hp, he⟩ := List.mem_map.mp h
    obtain ⟨hmem, hcam⟩ := List.mem_filter.mp hp
    exact ⟨p.2, by rw [← he]; exact hmem, hcam⟩
  · rintro ⟨d, hmem, hcam⟩
    exact List.mem_map.mpr ⟨(k, d), List.mem_filter.mpr ⟨hmem, hcam⟩, rfl⟩

theorem mem_camKeysOf_flip {fA fB : List (String × FeatureDesc)}
    (hd : dictEq (nonInternal fA) (nonInternal fB) = true)
    (hA : fA.all (fun p => !(internalKeys.contains p.1 && isCameraDtype p.2)) = true)
    {k : String} (h : k ∈ camKeysOf fA) : k ∈ camKeysOf fB := by
  obtain ⟨d, hmem, hcam⟩ := mem_camKeysOf.mp h
  rw [List.all_eq_true] at hA
  have hni : (internalKeys.contains k) = false := by
    have h2 := hA _ hmem
    rw [Bool.not_eq_true', Bool.and_eq_false_iff] at h2
    rcases h2 with h2 | h2
    · exact h2
    · rw [hcam] at h2; exact Bool.noConfusion h2
  have hmemA : (k, d) ∈ nonInternal fA :=
    List.mem_filter.mpr ⟨hmem, by rw [hni]; rfl⟩
  have hlook : (nonInternal fB).lookup k = some d := dictEq_lookup hd hmemA
  have hmemB : (k, d) ∈ nonInternal fB := lookup_mem hlook
  have hmemB2 : (k, d) ∈ fB := (List.mem_filter.mp hmemB).1
  exact mem_camKeysOf.mpr ⟨d, hmemB2, hcam⟩

theorem camKeys_contains_eq {fA fB : List (String × FeatureDesc)}
    (hd : dictEq (nonInternal fA) (nonInternal fB) = true)
    (hA : fA.all (fun p => !(internalKeys.contains p.1 && isCameraDtype p.2)) = true)
    (hB : fB.all (fun p => !(internalKeys.contains p.1 && isCameraDtype p.2)) = true) :
    ∀ k, (camKeysOf fA).contains k = (camKeysOf fB).contains k := by
  intro k
  have hd2 : dictEq (nonInternal fB) (nonInternal fA) = true := by
    rw [dictEq_symm]; exact hd
  apply Bool.coe_iff_coe.mp
  constructor
  · intro h
    exact List.elem_eq_true_of_mem (mem_camKeysOf_flip hd hA (List.elem_iff.mp h))
  · intro h
    exact List.elem_eq_true_of_mem (mem_camKeysOf_flip hd2 hB (List.elem_iff.mp h))

theorem mem_effStream {d : Dataset} {n : Nat} {f : Frame}
    (h : f ∈ effStream d n) : f ∈ d.frames := by
  rw [effStream] at h
  by_cases hs : d.streaming = true
  · rwa [if_pos hs] at h
  · rw [if_neg hs] at h
    exact (List.take_sublist n d.frames).subset h

theorem effStream_trunc (d : Dataset) (n : Nat) :
    effStream (truncFrames d n) n = (effStream d n).take n := by
  by_cases hs : d.streaming = true <;>
    simp [effStream, truncFrames, hs, List.take_take]

theorem compLen_symm (A B : Dataset) (mf : Option Nat) :
    compLen A B mf = compLen B A mf := by
  cases mf <;> simp [compLen, Nat.min_comm]

theorem compLen_trunc (A B : Dataset) (n : Nat) (mf : Option Nat) :
    compLen (truncFrames A n) (truncFrames B n) mf = compLen A B mf := rfl

theorem wf_frames {d : Dataset} (h : wf d = true) :
    ∀ f ∈ d.frames, nodupKeys f = true := by
  rw [wf, Bool.and_eq_true, Bool.and_eq_true] at h
  have h2 := h.1.1
  rw [List.all_eq_true] at h2
  exact h2

theorem wf_internal_not_camera {d : Dataset} (h : wf d = true) :
    d.meta.features.all
      (fun p => !(internalKeys.contains p.1 && isCameraDtype p.2)) = true := by
  rw [wf, Bool.and_eq_true, Bool.and_eq_true] at h
  exact h.2

/-!  Validator branch lemmas. -/

theorem validate_fps_ne {A B : Dataset} {ci : Bool} {rtol atol : ℚ}
    {mf : Option Nat} (h : A.meta.fps ≠ B.meta.fps) :
    validate A B ci rtol atol mf = .fpsMismatch A.meta.fps B.meta.fps := by
  rw [validate, if_pos h]

theorem validate_schema_ne {A B : Dataset} {ci : Bool} {rtol atol : ℚ}
    {mf : Option Nat} (hf : A.meta.fps = B.meta.fps)
    (hd : dictEq (nonInternal A.meta.features) (nonInternal B.meta.features) = false) :
    validate A B ci rtol atol mf =
      .schemaMismatch
        (sortStrs (missingKeys (nonInternal B.meta.features) (nonInternal A.meta.features)))
        (sortStrs (missingKeys (nonInternal A.meta.features) (nonInternal B.meta.features))) := by
  rw [validate, if_neg (fun hh => hh hf), if_neg (by rw [hd]; exact Bool.false_ne_true)]

theorem validate_stream {A B : Dataset} {ci : Bool} {rtol atol : ℚ}
    {mf : Option Nat} (hf : A.meta.fps = B.meta.fps)
    (hd : dictEq (nonInternal A.meta.features) (nonInternal B.meta.features) = true)
    (hs : (A.streaming || B.streaming) = true) :
    validate A B ci rtol atol mf =
      streamGo ci (camKeysOf A.meta.features) rtol atol 0 (compLen A B mf)
        (effStream A (compLen A B mf)) (effStream B (compLen A B mf)) := by
  rw [validate, if_neg (fun hh => hh hf), if_pos hd, if_pos hs]

theorem validate_random {A B : Dataset} {ci : Bool} {rtol atol : ℚ}
    {mf : Option Nat} (hf : A.meta.fps = B.meta.fps)
    (hd : dictEq (nonInternal A.meta.features) (nonInternal B.meta.features) = true)
    (hs : (A.streaming || B.streaming) = false) :
    validate A B ci rtol atol mf =
      randomGo ci (camKeysOf A.meta.features) rtol atol (compLen A B mf)
        A.frames B.frames := by
  rw [validate, if_neg (fun hh => hh hf), if_pos hd,
    if_neg (by rw [hs]; exact Bool.false_ne_true)]

theorem allclose_iff (rtol atol : ℚ) :
    ∀ xs ys : List ℚ,
      allclose rtol atol xs ys = true ↔
        (xs.length = ys.length ∧ ∀ j, j < xs.length →
          |xs.getD j 0 - ys.getD j 0| ≤ atol + rtol * |ys.getD j 0|) := by
  intro xs
  induction xs with
  | nil =>
    intro ys
    cases ys with
    | nil => simp [allclose]
    | cons y yt => simp [allclose]
  | cons x xt ih =>
    intro ys
    cases ys with
    | nil => simp [allclose]
    | cons y yt =>
      show (isClose rtol atol x y && allclose rtol atol xt yt) = true ↔ _
      rw [Bool.and_eq_true, ih yt]
      constructor
      · rintro ⟨h1, h2, h3⟩
        refine ⟨by simp [h2], ?_⟩
        intro j hj
        cases j with
        | zero => simpa [isClose] using h1
        | succ jj =>
          have h4 := h3 jj (by simpa using hj)
          simpa using h4
      · rintro ⟨h1, h2⟩
        refine ⟨?_, by simpa using h1, ?_⟩
        · have h3 := h2 0 (by simp)
          simpa [isClose] using h3
        · intro j hj
          have h3 := h2 (j + 1) (by simpa using hj)
          simpa using h3

theorem compare_values_tensor_iff (ls rs : List Nat) (ld rd : List ℚ)
    (rtol atol : ℚ) :
    compare_values (.tensor ls ld) (.tensor rs rd) rtol atol = true ↔
      (ls = rs ∧ ld.length = rd.length ∧ ∀ j, j < ld.length →
        |ld.getD j 0 - rd.getD j 0| ≤ atol + rtol * |rd.getD j 0|) := by
  show (ls == rs && allclose rtol atol ld rd) = true ↔ _
  rw [Bool.and_eq_true, allclose_iff]
  simp [and_assoc]

theorem randomGo_take (ci : Bool) (cams : List String) (rtol atol : ℚ)
    (num : Nat) (sf tf : List Frame) :
    randomGo ci cams rtol atol num sf tf =
      randomGo ci cams rtol atol num (sf.take num) (tf.take num) := by
  rw [randomGo, randomGo]
  by_cases h0 : num = 0
  · rw [if_pos h0, if_pos h0]
  · rw [if_neg h0, if_neg h0]
    rw [List.getElem?_take_of_lt (by omega), List.getElem?_take_of_lt (by omega)]

theorem filter_range_zero :
    ∀ n : Nat, 1 ≤ n →
      ((List.range n).filter (fun r => decide (r = 0))).length = 1 := by
  intro n
  induction n with
  | zero => intro h; omega
  | succ m ih =>
    intro _
    rw [List.range_succ, List.filter_append, List.length_append]
    rcases Nat.eq_zero_or_pos m with h0 | hpos
    · subst h0
      decide
    · rw [ih hpos]
      have h2 : (List.filter (fun r => decide (r = 0)) [m]).length = 0 := by
        have hm : ¬(m = 0) := by omega
        simp [hm]
      omega

theorem bool_eq_false {b : Bool} (h : ¬ b = true) : b = false := by
  cases b
  · rfl
  · exact absurd rfl h

theorem mem_missingKeys {a b : List (String × FeatureDesc)} {k : String} :
    k ∈ missingKeys a b ↔
      (∃ d, (k, d) ∈ a) ∧ ¬ ∃ d, (k, d) ∈ b := by
  rw [missingKeys]
  constructor
  · intro h
    obtain ⟨p, hp, he⟩ := List.mem_map.mp h
    obtain ⟨hmem, hpred⟩ := List.mem_filter.mp hp
    subst he
    refine ⟨⟨p.2, hmem⟩, ?_⟩
    rintro ⟨d, hd⟩
    rw [Bool.not_eq_true'] at hpred
    have h2 : (b.any fun q => q.1 == p.1) = true :=
      List.any_eq_true.mpr ⟨(p.1, d), hd, by simp⟩
    rw [hpred] at h2
    exact Bool.noConfusion h2
  · rintro ⟨⟨d, hd⟩, hnb⟩
    apply List.mem_map.mpr
    refine ⟨(k, d), List.mem_filter.mpr ⟨hd, ?_⟩, rfl⟩
    rw [Bool.not_eq_true']
    cases hany : b.any fun q => q.1 == k
    · rfl
    · exfalso
      obtain ⟨q, hq, he⟩ := List.any_eq_true.mp hany
      have he2 : q.1 = k := by simpa using he
      subst he2
      exact hnb ⟨q.2, by simpa using hq⟩

theorem validate_shape_of_pre {A B : Dataset} {ci : Bool} {rtol atol : ℚ}
    {mf : Option Nat} (hf : A.meta.fps = B.meta.fps)
    (hd : dictEq (nonInternal A.meta.features) (nonInternal B.meta.features) = true) :
    (∀ x y, validate A B ci rtol atol mf ≠ .fpsMismatch x y)
    ∧ (∀ ml mr, validate A B ci rtol atol mf ≠ .schemaMismatch ml mr) := by
  by_cases hs : (A.streaming || B.streaming) = true
  · rw [validate_stream hf hd hs]
    rcases streamGo_spec ci (camKeysOf A.meta.features) rtol atol
        (compLen A B mf) 0 (effStream A (compLen A B mf))
        (effStream B (compLen A B mf)) with
      ⟨k, hk, _⟩ | ⟨j, hj, _⟩ | ⟨j, key, hj, _⟩
    · rw [hk]
      exact ⟨fun x y h => VResult.noConfusion h, fun a b h => VResult.noConfusion h⟩
    · rw [hj]
      exact ⟨fun x y h => VResult.noConfusion h, fun a b h => VResult.noConfusion h⟩
    · rw [hj]
      exact ⟨fun x y h => VResult.noConfusion h, fun a b h => VResult.noConfusion h⟩
  · rw [validate_random hf hd (bool_eq_false hs)]
    rcases randomGo_spec ci (camKeysOf A.meta.features) rtol atol
        (compLen A B mf) A.frames B.frames with
      ⟨_, heq⟩ | heq | heq | ⟨_, heq⟩ | ⟨_, k, heq⟩ <;> rw [heq] <;>
      exact ⟨fun x y h => VResult.noConfusion h, fun a b h => VResult.noConfusion h⟩

theorem validate_result_bounds (A B : Dataset) (ci : Bool) (rtol atol : ℚ)
    (mf : Option Nat) :
    (∃ x y, validate A B ci rtol atol mf = .fpsMismatch x y)
    ∨ (∃ a b, validate A B ci rtol atol mf = .schemaMismatch a b)
    ∨ validate A B ci rtol atol mf = .nameError
    ∨ validate A B ci rtol atol mf = .indexError
    ∨ (∃ k, validate A B ci rtol atol mf = .ok k ∧ k ≤ compLen A B mf)
    ∨ (∃ j, validate A B ci rtol atol mf = .keysMismatch j ∧ j < compLen A B mf)
    ∨ (∃ j key, validate A B ci rtol atol mf = .valueMismatch j key ∧
        j < compLen A B mf) := by
  by_cases hf : A.meta.fps = B.meta.fps
  · by_cases hd : dictEq (nonInternal A.meta.features)
        (nonInternal B.meta.features) = true
    · by_cases hs : (A.streaming || B.streaming) = true
      · rw [validate_stream hf hd hs]
        rcases streamGo_spec ci (camKeysOf A.meta.features) rtol atol
            (compLen A B mf) 0 (effStream A (compLen A B mf))
            (effStream B (compLen A B mf)) with
          ⟨k, hk, hb⟩ | ⟨j, hj, hb⟩ | ⟨j, key, hj, hb⟩
        · exact Or.inr (Or.inr (Or.inr (Or.inr (Or.inl ⟨k, hk, by omega⟩))))
        · exact Or.inr (Or.inr (Or.inr (Or.inr (Or.inr (Or.inl ⟨j, hj, by omega⟩)))))
        · exact Or.inr (Or.inr (Or.inr (Or.inr (Or.inr (Or.inr
            ⟨j, key, hj, by omega⟩)))))
      · rw [validate_random hf hd (bool_eq_false hs)]
        rcases randomGo_spec ci (camKeysOf A.meta.features) rtol atol
            (compLen A B mf) A.frames B.frames with
          ⟨h0, heq⟩ | heq | heq | ⟨hp, heq⟩ | ⟨hp, k, heq⟩
        · exact Or.inr (Or.inr (Or.inl heq))
        · exact Or.inr (Or.inr (Or.inr (Or.inl heq)))
        · exact Or.inr (Or.inr (Or.inr (Or.inr (Or.inl ⟨_, heq, Nat.le_refl _⟩))))
        · exact Or.inr (Or.inr (Or.inr (Or.inr (Or.inr (Or.inl
            ⟨_, heq, by omega⟩)))))
        · exact Or.inr (Or.inr (Or.inr (Or.inr (Or.inr (Or.inr
            ⟨_, k, heq, by omega⟩)))))
    · exact Or.inr (Or.inl ⟨_, _, validate_schema_ne hf (bool_eq_false hd)⟩)
  · exact Or.inl ⟨_, _, validate_fps_ne hf⟩

/-!  Claim theorems. -/

/-- Claim C1 (code-bug evidence).  The non-streaming branch of the
validator fetches every frame but runs the key-set / per-key checks
only once, after the loop, on the last frame pair.  On a two-frame
random-access pair that disagrees at frame 0 (and agrees at frame 1)
the script reports success over 2 frames, although the per-frame check
rejects frame 0 — and the streaming branch of the very same script,
which checks every frame, fails there with a value mismatch at frame 0
for key `x`. -/
theorem c1_random_mode_checks_only_last_frame :
    validate c1Src c1Tgt false 0 0 none = .ok 2
    ∧ checkFrame 0 false (camKeysOf c1Src.meta.features) 0 0
        [("x", .float 0)] [("x", .float 7)] = some (.valueMismatch 0 "x")
    ∧ validate { c1Src with streaming := true } { c1Tgt with streaming := true }
        false 0 0 none = .valueMismatch 0 "x" :=
  ⟨by decide, by decide, by decide⟩

/-- Claim C2 counterexample.  `torch.allclose` scales its relative
tolerance by the second argument, so with `rtol = 1, atol = 0` the pair
`(0, 100)` is close (`|0-100| ≤ 1*|100|`) but the swapped pair is not
(`|100-0| > 1*|0|`): `validate(A, B)` succeeds while `validate(B, A)`
fails, refuting symmetry for arbitrary `rtol`. -/
theorem c2_swap_flips_outcome :
    validate c2A c2B false 1 0 none = .ok 1
    ∧ validate c2B c2A false 1 0 none = .valueMismatch 0 "x"
    ∧ succeeds (validate c2A c2B false 1 0 none) ≠
        succeeds (validate c2B c2A false 1 0 none) :=
  ⟨by decide, by decide, by decide⟩

/-- Claim C4 (code-bug evidence).  `compare_values` on two tensors is
shape equality together with elementwise `|l - r| ≤ atol + rtol*|r|`; a
float against a one-element tensor is unwrapped and compared exactly,
ignoring the tolerances.  On the scenario pair (identical 10-frame
datasets except a `1e-7` perturbation of feature `x` at frame 5) the
streaming validator behaves exactly as the claim states: it fails at
frame 5 naming `x` under `rtol = atol = 0` and succeeds under
`rtol = atol = 1e-5`.  But in random-access mode the script checks only
the last frame, so the zero-tolerance run wrongly reports success. -/
theorem c4_compare_semantics_and_tolerance :
    (∀ (rtol atol : ℚ) (ls rs : List Nat) (ld rd : List ℚ),
      compare_values (.tensor ls ld) (.tensor rs rd) rtol atol = true ↔
        (ls = rs ∧ ld.length = rd.length ∧ ∀ j, j < ld.length →
          |ld.getD j 0 - rd.getD j 0| ≤ atol + rtol * |rd.getD j 0|))
    ∧ (∀ (x e : ℚ) (sh : List Nat) (rtol atol : ℚ),
        compare_values (.float x) (.tensor sh [e]) rtol atol = (x == e))
    ∧ validate c4SrcStream c4TgtStream false 0 0 none = .valueMismatch 5 "x"
    ∧ validate c4SrcStream c4TgtStream false (1/100000) (1/100000) none = .ok 10
    ∧ validate c4SrcRand c4TgtRand false 0 0 none = .ok 10
    ∧ validate c4SrcRand c4TgtRand false (1/100000) (1/100000) none = .ok 10 :=
  ⟨fun rtol atol ls rs ld rd => compare_values_tensor_iff ls rs ld rd rtol atol,
    fun x e sh rtol atol => rfl,
    by decide, by decide, by decide, by decide⟩

/-- Claim C8 counterexample.  The worker's output identifier is not
always distinct from the source repo id: with source repo id
`a_world_1_rank_0`, prefix `a`, world size 1 and rank 0, the output
identifier equals the source repo id exactly. -/
theorem c8_output_can_equal_source :
    outRepoId "a_world_1_rank_0" (some "a") 1 0 = "a_world_1_rank_0" := by
  decide

/-- Claim C10 counterexample.  With an empty base string the two naming
schemes disagree: the aggregation driver derives `_world_1_rank_0`,
while a converter run with `out_repo_prefix = ""` falls back to its
source repo id (Python `or` treats `""` as falsy) and writes
`x_world_1_rank_0`. -/
theorem c10_empty_base_breaks_roundtrip :
    shardRepoIds "" 1 = ["_world_1_rank_0"]
    ∧ (List.range 1).map (fun r => outRepoId "x" (some "") 1 r) = ["x_world_1_rank_0"]
    ∧ shardRepoIds "" 1 ≠ (List.range 1).map (fun r => outRepoId "x" (some "") 1 r) :=
  ⟨by decide, by decide, by decide⟩

/-- Claim C3.  In streaming mode, once the fps and schema preconditions
pass, if the two effective cursors yield only `k < n` frame pairs and
all compared pairs pass the per-frame check, the validator stops
without raising and reports exactly `k`, the number of pairs actually
compared. -/
theorem c3_streaming_early_exhaustion (A B : Dataset) (ci : Bool)
    (rtol atol : ℚ) (mf : Option Nat)
    (hs : (A.streaming || B.streaming) = true)
    (hf : A.meta.fps = B.meta.fps)
    (hd : dictEq (nonInternal A.meta.features) (nonInternal B.meta.features) = true)
    (hk : min (effStream A (compLen A B mf)).length
        (effStream B (compLen A B mf)).length < compLen A B mf)
    (hok : ∀ j, j < min (effStream A (compLen A B mf)).length
          (effStream B (compLen A B mf)).length →
        checkFrame j ci (camKeysOf A.meta.features) rtol atol
          ((effStream A (compLen A B mf)).getD j [])
          ((effStream B (compLen A B mf)).getD j []) = none) :
    validate A B ci rtol atol mf =
      .ok (min (effStream A (compLen A B mf)).length
        (effStream B (compLen A B mf)).length) := by
  rw [validate_stream hf hd hs]
  have h2 := streamGo_ok_all (compLen A B mf) 0
    (effStream A (compLen A B mf)) (effStream B (compLen A B mf)) hk
    (fun j hj => by simpa using hok j hj)
  simpa using h2

/-- Claim C3 witness: scenario D.  Source is a 20-frame random-access
dataset; target metadata records 20 frames but its streaming cursor
exhausts after 7; with `--max-frames 10` the run succeeds reporting 7
frames compared. -/
theorem c3_witness :
    ((c3Src.streaming || c3Tgt.streaming) = true)
    ∧ c3Src.meta.fps = c3Tgt.meta.fps
    ∧ dictEq (nonInternal c3Src.meta.features) (nonInternal c3Tgt.meta.features) = true
    ∧ min (effStream c3Src (compLen c3Src c3Tgt (some 10))).length
        (effStream c3Tgt (compLen c3Src c3Tgt (some 10))).length <
        compLen c3Src c3Tgt (some 10)
    ∧ validate c3Src c3Tgt false 0 0 (some 10) =
        .ok (min (effStream c3Src (compLen c3Src c3Tgt (some 10))).length
          (effStream c3Tgt (compLen c3Src c3Tgt (some 10))).length)
    ∧ validate c3Src c3Tgt false 0 0 (some 10) = .ok 7 := by
  refine ⟨by decide, by decide, by decide, by decide, ?_, by decide⟩
  exact c3_streaming_early_exhaustion c3Src c3Tgt false 0 0 (some 10)
    (by decide) (by decide) (by decide) (by decide) (by decide)

/-- Claim C8 amended.  The worker writes its shard under
`{out_repo_prefix or repo_id}_world_{world_size}_rank_{rank}`; when the
prefix is left unset (or empty, or equal to the source repo id) — in
particular in the default configuration — the output identifier is
strictly longer than, hence distinct from, the source repo id.  (An
adversarial prefix can still collide with a source repo id that itself
ends in `_world_W_rank_R`; see the counterexample.) -/
theorem c8_amended (repo : String) (p : Option String) (ws rank : Nat)
    (hp : p = none ∨ p = some "" ∨ p = some repo) :
    outRepoId repo p ws rank =
      pyOr p repo ++ "_world_" ++ toString ws ++ "_rank_" ++ toString rank
    ∧ outRepoId repo p ws rank ≠ repo := by
  have hpy : pyOr p repo = repo := by
    rcases hp with h | h | h <;> subst h <;> simp [pyOr]
  refine ⟨rfl, ?_⟩
  rw [outRepoId, hpy]
  intro he
  have hl := congrArg String.length he
  rw [String.length_append, String.length_append, String.length_append,
    String.length_append] at hl
  have h7 : ("_world_" : String).length = 7 := by decide
  omega

/-- Claim C8 witness: default prefix, world size 2, rank 1. -/
theorem c8_witness :
    ((none : Option String) = none ∨ (none : Option String) = some "" ∨
      (none : Option String) = some "x")
    ∧ (outRepoId "x" none 2 1 =
        pyOr none "x" ++ "_world_" ++ toString 2 ++ "_rank_" ++ toString 1
      ∧ outRepoId "x" none 2 1 ≠ "x") :=
  ⟨Or.inl rfl, c8_amended "x" none 2 1 (Or.inl rfl)⟩

/-- Claim C9.  `AggregateV21Shards.run` calls `aggregate_datasets`
exactly when `rank = 0`, passing the configured shard list and output
id, so among any `world_size ≥ 1` parallel tasks exactly one performs
the aggregation. -/
theorem c9_aggregate_rank_zero (ids : List String) (out : String) (ws : Nat)
    (hws : 1 ≤ ws) :
    (∀ rank, (AggregateV21Shards.run ids out rank ws).isSome ↔ rank = 0)
    ∧ AggregateV21Shards.run ids out 0 ws = some (ids, out)
    ∧ ((List.range ws).filter
        (fun r => (AggregateV21Shards.run ids out r ws).isSome)).length = 1 := by
  have hrun : ∀ rank, ((AggregateV21Shards.run ids out rank ws).isSome) =
      decide (rank = 0) := by
    intro rank
    rw [AggregateV21Shards.run]
    by_cases h : rank = 0 <;> simp [h]
  refine ⟨?_, ?_, ?_⟩
  · intro rank
    rw [hrun rank]
    simp
  · rw [AggregateV21Shards.run, if_pos rfl]
  · rw [List.filter_congr (fun r _ => hrun r)]
    exact filter_range_zero ws hws

/-- Claim C9 witness: three parallel tasks, exactly one aggregates. -/
theorem c9_witness :
    1 ≤ 3
    ∧ ((∀ rank, (AggregateV21Shards.run ["s0", "s1"] "agg" rank 3).isSome ↔ rank = 0)
      ∧ AggregateV21Shards.run ["s0", "s1"] "agg" 0 3 = some (["s0", "s1"], "agg")
      ∧ ((List.range 3).filter
          (fun r => (AggregateV21Shards.run ["s0", "s1"] "agg" r 3).isSome)).length = 1) :=
  ⟨by decide, c9_aggregate_rank_zero ["s0", "s1"] "agg" 3 (by decide)⟩

/-- Claim C10 amended.  For every non-empty base and worker count `W`,
the aggregation driver's derived shard list equals, element for element
in rank order, the output identifiers the `W` converter workers produce
when run with `out_repo_prefix = base` — with an empty base the
converter falls back to its source repo id and the round trip breaks. -/
theorem c10_amended (base repo : String) (w : Nat) (hb : base ≠ "") :
    shardRepoIds base w =
      (List.range w).map (fun r => outRepoId repo (some base) w r) := by
  simp [shardRepoIds, outRepoId, pyOr, hb]

/-- Claim C10 witness: base `b`, two workers. -/
theorem c10_witness :
    ("b" : String) ≠ ""
    ∧ shardRepoIds "b" 2 =
        (List.range 2).map (fun r => outRepoId "x" (some "b") 2 r) :=
  ⟨by decide, c10_amended "b" "x" 2 (by decide)⟩

/-- Claim C2 amended.  With `rtol = 0` the closeness test degenerates
to `|l - r| ≤ atol`, which is symmetric, and every other comparison the
validator performs (fps, schema, key sets, exact equality) is symmetric
too, so for well-formed datasets (frames and feature maps are real
Python dicts, internal keys are not camera-typed) swapping the two
dataset arguments never flips the success/failure outcome.  With
`rtol > 0` the claim fails (see the counterexample): `torch.allclose`
scales the relative term by its second argument only. -/
theorem c2_amended_symmetry (A B : Dataset) (ci : Bool) (atol : ℚ)
    (mf : Option Nat) (hA : wf A = true) (hB : wf B = true) :
    succeeds (validate A B ci 0 atol mf) =
      succeeds (validate B A ci 0 atol mf) := by
  by_cases hf : A.meta.fps = B.meta.fps
  · by_cases hd : dictEq (nonInternal A.meta.features)
        (nonInternal B.meta.features) = true
    · have hd2 : dictEq (nonInternal B.meta.features)
          (nonInternal A.meta.features) = true := by
        rw [dictEq_symm]; exact hd
      have hcam := camKeys_contains_eq hd (wf_internal_not_camera hA)
        (wf_internal_not_camera hB)
      by_cases hs : (A.streaming || B.streaming) = true
      · have hs2 : (B.streaming || A.streaming) = true := by
          rw [Bool.or_comm]; exact hs
        rw [validate_stream hf hd hs, validate_stream hf.symm hd2 hs2,
          compLen_symm B A mf]
        exact streamGo_symm hcam (compLen A B mf) 0
          (effStream A (compLen A B mf)) (effStream B (compLen A B mf))
          (fun f hf2 => wf_frames hA f (mem_effStream hf2))
          (fun f hf2 => wf_frames hB f (mem_effStream hf2))
      · have hsf : (A.streaming || B.streaming) = false := by
          revert hs
          cases A.streaming || B.streaming <;> simp
        have hs2 : (B.streaming || A.streaming) = false := by
          rw [Bool.or_comm]; exact hsf
        rw [validate_random hf hd hsf, validate_random hf.symm hd2 hs2,
          compLen_symm B A mf]
        exact randomGo_symm hcam (wf_frames hA) (wf_frames hB)
    · have hdf : dictEq (nonInternal A.meta.features)
          (nonInternal B.meta.features) = false := by
        revert hd
        cases dictEq (nonInternal A.meta.features) (nonInternal B.meta.features) <;>
          simp
      have hdf2 : dictEq (nonInternal B.meta.features)
          (nonInternal A.meta.features) = false := by
        rw [dictEq_symm]; exact hdf
      rw [validate_schema_ne hf hdf, validate_schema_ne hf.symm hdf2]
      rfl
  · rw [validate_fps_ne hf, validate_fps_ne (fun he => hf he.symm)]
    rfl

/-- Claim C2 witness: with `rtol = 0` the two orders agree on the
counterexample pair itself. -/
theorem c2_witness :
    wf c2A = true ∧ wf c2B = true
    ∧ succeeds (validate c2A c2B false 0 0 none) =
        succeeds (validate c2B c2A false 0 0 none) :=
  ⟨by decide, by decide, c2_amended_symmetry c2A c2B false 0 none (by decide) (by decide)⟩

/-- Claim C5.  Given matching fps, the validator raises a schema
mismatch exactly when the two feature maps differ after removing the
internal bookkeeping keys; the failure names the features present on
only one side, and it is produced before any frame is fetched —
whatever the frame contents or access modes, the same failure
results. -/
theorem c5_schema_check (A B : Dataset) (ci : Bool) (rtol atol : ℚ)
    (mf : Option Nat) (hf : A.meta.fps = B.meta.fps) :
    C5Concl A B ci rtol atol mf := by
  rw [C5Concl]
  have hdetect : ∀ ml mr, validate A B ci rtol atol mf = .schemaMismatch ml mr →
      dictEq (nonInternal A.meta.features) (nonInternal B.meta.features) = false := by
    intro ml mr heq
    by_cases hd : dictEq (nonInternal A.meta.features)
        (nonInternal B.meta.features) = true
    · exact absurd heq ((validate_shape_of_pre hf hd).2 ml mr)
    · exact bool_eq_false hd
  constructor
  · constructor
    · rintro ⟨ml, mr, heq⟩
      exact hdetect ml mr heq
    · intro hdf
      exact ⟨_, _, validate_schema_ne hf hdf⟩
  · intro ml mr heq
    have hdf := hdetect ml mr heq
    have hcan : validate A B ci rtol atol mf =
        .schemaMismatch
          (sortStrs (missingKeys (nonInternal B.meta.features)
            (nonInternal A.meta.features)))
          (sortStrs (missingKeys (nonInternal A.meta.features)
            (nonInternal B.meta.features))) := validate_schema_ne hf hdf
    rw [heq] at hcan
    rw [VResult.schemaMismatch.injEq] at hcan
    obtain ⟨hml, hmr⟩ := hcan
    subst hml
    subst hmr
    refine ⟨?_, ?_, ?_⟩
    · intro k
      rw [mem_sortStrs, mem_missingKeys]
    · intro k
      rw [mem_sortStrs, mem_missingKeys]
    · intro fa fb sa sb
      exact validate_schema_ne hf hdf

/-- Claim C5 witness: scenario C, a target missing the non-internal
feature `obs`. -/
theorem c5_witness :
    c5Src.meta.fps = c5Tgt.meta.fps ∧ C5Concl c5Src c5Tgt false 0 0 none :=
  ⟨by decide, c5_schema_check c5Src c5Tgt false 0 0 none (by decide)⟩

/-- Claim C6.  The validator fails with an fps mismatch exactly when
the two datasets' fps differ under exact equality; the check runs
before the schema check and before any frame access: whenever the fps
differ, the outcome is the fps failure irrespective of the feature
maps, the frame contents, and the access modes. -/
theorem c6_fps_check :
    (∀ (A B : Dataset) (ci : Bool) (rtol atol : ℚ) (mf : Option Nat),
      (∃ x y, validate A B ci rtol atol mf = .fpsMismatch x y) ↔
        A.meta.fps ≠ B.meta.fps)
    ∧ (∀ (x y : ℚ), x ≠ y →
        ∀ (nA nB : Nat) (fA fB : List (String × FeatureDesc))
          (fra frb : List Frame) (sa sb ci : Bool) (rtol atol : ℚ)
          (mf : Option Nat),
          validate ⟨⟨x, nA, fA⟩, fra, sa⟩ ⟨⟨y, nB, fB⟩, frb, sb⟩ ci rtol atol mf =
            .fpsMismatch x y) := by
  constructor
  · intro A B ci rtol atol mf
    constructor
    · rintro ⟨x, y, heq⟩ hf
      by_cases hd : dictEq (nonInternal A.meta.features)
          (nonInternal B.meta.features) = true
      · exact (validate_shape_of_pre hf hd).1 x y heq
      · have h2 : validate A B ci rtol atol mf =
            .schemaMismatch
              (sortStrs (missingKeys (nonInternal B.meta.features)
                (nonInternal A.meta.features)))
              (sortStrs (missingKeys (nonInternal A.meta.features)
                (nonInternal B.meta.features))) :=
          validate_schema_ne hf (bool_eq_false hd)
        rw [heq] at h2
        exact VResult.noConfusion h2
    · intro hne
      exact ⟨A.meta.fps, B.meta.fps, validate_fps_ne hne⟩
  · intro x y hne nA nB fA fB fra frb sa sb ci rtol atol mf
    exact validate_fps_ne hne

/-- Claim C7.  The comparison length is
`min(source.num_frames, target.num_frames)`, capped by `max_frames`
when supplied; the run's outcome only depends on the first `n` frames
of each dataset (truncating both to `n` frames changes nothing), a
successful run never reports more than `n` frames compared, and every
reported mismatch is at a frame index below `n`. -/
theorem c7_comparison_length (A B : Dataset) (ci : Bool) (rtol atol : ℚ)
    (mf : Option Nat) :
    validate A B ci rtol atol mf =
      validate (truncFrames A (compLen A B mf)) (truncFrames B (compLen A B mf))
        ci rtol atol mf
    ∧ (∀ k, validate A B ci rtol atol mf = .ok k → k ≤ compLen A B mf)
    ∧ (∀ j, validate A B ci rtol atol mf = .keysMismatch j → j < compLen A B mf)
    ∧ (∀ j key, validate A B ci rtol atol mf = .valueMismatch j key →
        j < compLen A B mf)
    ∧ compLen A B none = min A.meta.numFrames B.meta.numFrames
    ∧ (∀ m, compLen A B (some m) = min (min A.meta.numFrames B.meta.numFrames) m) := by
  refine ⟨?_, ?_, ?_, ?_, rfl, fun m => rfl⟩
  · by_cases hf : A.meta.fps = B.meta.fps
    · by_cases hd : dictEq (nonInternal A.meta.features)
          (nonInternal B.meta.features) = true
      · by_cases hs : (A.streaming || B.streaming) = true
        · rw [validate_stream hf hd hs]
          have h2 : validate (truncFrames A (compLen A B mf))
              (truncFrames B (compLen A B mf)) ci rtol atol mf =
              streamGo ci (camKeysOf (truncFrames A (compLen A B mf)).meta.features)
                rtol atol 0
                (compLen (truncFrames A (compLen A B mf))
                  (truncFrames B (compLen A B mf)) mf)
                (effStream (truncFrames A (compLen A B mf))
                  (compLen (truncFrames A (compLen A B mf))
                    (truncFrames B (compLen A B mf)) mf))
                (effStream (truncFrames B (compLen A B mf))
                  (compLen (truncFrames A (compLen A B mf))
                    (truncFrames B (compLen A B mf)) mf)) :=
            validate_stream hf hd hs
          rw [h2, compLen_trunc, effStream_trunc, effStream_trunc]
          exact streamGo_take ci (camKeysOf A.meta.features) rtol atol
            (compLen A B mf) 0 (effStream A (compLen A B mf))
            (effStream B (compLen A B mf))
        · rw [validate_random hf hd (bool_eq_false hs)]
          have h2 : validate (truncFrames A (compLen A B mf))
              (truncFrames B (compLen A B mf)) ci rtol atol mf =
              randomGo ci (camKeysOf (truncFrames A (compLen A B mf)).meta.features)
                rtol atol
                (compLen (truncFrames A (compLen A B mf))
                  (truncFrames B (compLen A B mf)) mf)
                (truncFrames A (compLen A B mf)).frames
                (truncFrames B (compLen A B mf)).frames :=
            validate_random hf hd (bool_eq_false hs)
          rw [h2, compLen_trunc]
          exact randomGo_take ci (camKeysOf A.meta.features) rtol atol
            (compLen A B mf) A.frames B.frames
      · have h1 : validate A B ci rtol atol mf =
            .schemaMismatch
              (sortStrs (missingKeys (nonInternal B.meta.features)
                (nonInternal A.meta.features)))
              (sortStrs (missingKeys (nonInternal A.meta.features)
                (nonInternal B.meta.features))) :=
          validate_schema_ne hf (bool_eq_false hd)
        have h2 : validate (truncFrames A (compLen A B mf))
            (truncFrames B (compLen A B mf)) ci rtol atol mf =
            .schemaMismatch
              (sortStrs (missingKeys (nonInternal B.meta.features)
                (nonInternal A.meta.features)))
              (sortStrs (missingKeys (nonInternal A.meta.features)
                (nonInternal B.meta.features))) :=
          validate_schema_ne hf (bool_eq_false hd)
        rw [h1, h2]
    · have h1 : validate A B ci rtol atol mf =
          .fpsMismatch A.meta.fps B.meta.fps := validate_fps_ne hf
      have h2 : validate (truncFrames A (compLen A B mf))
          (truncFrames B (compLen A B mf)) ci rtol atol mf =
          .fpsMismatch A.meta.fps B.meta.fps := validate_fps_ne hf
      rw [h1, h2]
  · intro k heq
    rcases validate_result_bounds A B ci rtol atol mf with
      ⟨x, y, h2⟩ | ⟨a, b, h2⟩ | h2 | h2 | ⟨k2, h2, hb⟩ | ⟨j2, h2, hb⟩ |
      ⟨j2, key2, h2, hb⟩ <;> rw [heq] at h2 <;>
      first
      | exact VResult.noConfusion h2
      | (rw [VResult.ok.injEq] at h2; omega)
  · intro j heq
    rcases validate_result_bounds A B ci rtol atol mf with
      ⟨x, y, h2⟩ | ⟨a, b, h2⟩ | h2 | h2 | ⟨k2, h2, hb⟩ | ⟨j2, h2, hb⟩ |
      ⟨j2, key2, h2, hb⟩ <;> rw [heq] at h2 <;>
      first
      | exact VResult.noConfusion h2
      | (rw [VResult.keysMismatch.injEq] at h2; omega)
  · intro j key heq
    rcases validate_result_bounds A B ci rtol atol mf with
      ⟨x, y, h2⟩ | ⟨a, b, h2⟩ | h2 | h2 | ⟨k2, h2, hb⟩ | ⟨j2, h2, hb⟩ |
      ⟨j2, key2, h2, hb⟩ <;> rw [heq] at h2 <;>
      first
      | exact VResult.noConfusion h2
      | (rw [VResult.valueMismatch.injEq] at h2; obtain ⟨h3, h4⟩ := h2; omega)

end V21
